import Mathlib

/-!
# Verification of the grouped dual-list selection engine

Shallow embedding of `customMultiSelectPickList.js` (the staging-register
variant under `force-app/`, which is the authoritative source): the grouping
engine (`processQueryResults`), the selection state (`selectedItems`), the two
staging registers (`tempSelectedItems` / `tempChosenItems`), the chosen-side
view (`selectedGroupsData` via `updateSelectedGroupsData`), and every public
or event-driven mutator.  JavaScript records are modelled as association
lists from field names to string values; an absent field is `none`, and JS
string truthiness (`undefined` and `""` are falsy) is modelled by `jsTruthy`.
JS `Map` objects (insertion-ordered, last `set` wins) are modelled by the
ordered association-list operations `omapSet` / `omapGet`.  The two derived
display strings `toggleIcon` / `itemsClass` (pure functions of `isExpanded`)
are omitted from the group structures; every other field is carried.
Each mutating operation returns the new component state together with the
payload of the `selection` event it dispatches (`none` when the source does
not call `emitSelectionEvent` on that path).
-/

namespace Picklist

/-- A `{name, id}` record as stored in `selectedItems` and in event payloads
(`name` is `Option String` because a JS field can be `undefined`). -/
structure SelRecord where
  name : Option String
  id : String
deriving Repr, DecidableEq

/-- An item of an available group: `{name, id, isSelected}`. -/
structure Item where
  name : Option String
  id : String
  isSelected : Bool
deriving Repr, DecidableEq

/-- An available-side group as built by `processQueryResults`
(display-only `toggleIcon` / `itemsClass` omitted). -/
structure Group where
  groupName : String
  items : List Item
  isExpanded : Bool
  isAllSelected : Bool
deriving Repr, DecidableEq

/-- A chosen-side group as built by `updateSelectedGroupsData`. -/
structure ChosenGroup where
  groupName : String
  items : List SelRecord
  isExpanded : Bool
deriving Repr, DecidableEq

/-- A raw record returned by the data-fetch collaborator: an association
list from field names to string values (an absent field reads as `none`). -/
abbrev RawRecord := List (String × String)

/-- The `detail.selectedRecords` payload of the `selection` event. -/
abbrev Payload := List SelRecord

/-- The component state: the `@api` configuration, the tracked fields and the
two staging registers of `CustomMultiSelectPickList`. -/
structure Component where
  groupBy : Option String
  pickValues : Option String
  preSelectedRecords : List SelRecord
  processedData : List Group
  selectedItems : List SelRecord
  selectedGroupsData : List ChosenGroup
  tempSelectedItems : List String
  tempChosenItems : List String
  isLoading : Bool
  error : Option String
deriving Repr, DecidableEq

/-- The component state right after construction: empty collections,
`isLoading = true`, no error. -/
def initState (gb pv : Option String) : Component :=
  { groupBy := gb, pickValues := pv, preSelectedRecords := [],
    processedData := [], selectedItems := [], selectedGroupsData := [],
    tempSelectedItems := [], tempChosenItems := [],
    isLoading := true, error := none }

/-! ## JavaScript field access and truthiness -/

/-- JS `record[f]`: property access on a raw record; `none` models `undefined`. -/
def getField (r : RawRecord) (f : String) : Option String :=
  (r.find? (fun p => p.1 == f)).map (fun p => p.2)

/-- JS truthiness of a string-or-undefined value: `undefined` and `""` are
falsy, every other string is truthy. -/
def jsTruthy (a : Option String) : Bool :=
  match a with
  | some s => s != ""
  | none => false

/-- JS `a || d` where the result is used as a string (`d` a string literal). -/
def jsOrStr (a : Option String) (d : String) : String :=
  if jsTruthy a then a.getD d else d

/-- JS `a || b` on two possibly-undefined values. -/
def jsOrOpt (a b : Option String) : Option String :=
  if jsTruthy a then a else b

/-! ## Insertion-ordered maps (JS `Map`)

`omapSet` overwrites in place when the key is present (keeping its original
position) and appends otherwise; `omapGet` is `Map.prototype.get`. -/

/-- JS `Map.prototype.set`: overwrite in place, else append. -/
def omapSet (m : List (String × α)) (k : String) (v : α) : List (String × α) :=
  match m with
  | [] => [(k, v)]
  | (k', v') :: rest => if k' == k then (k, v) :: rest else (k', v') :: omapSet rest k v

/-- JS `Map.prototype.get` (`none` models `undefined`). -/
def omapGet (m : List (String × α)) (k : String) : Option α :=
  (m.find? (fun p => p.1 == k)).map (fun p => p.2)

/-! ## Grouping engine (`processQueryResults`) -/

/-- The group key chosen for a record:
`this.groupBy ? (record[this.groupBy] || 'Unassigned') : 'Default Group'`. -/
def groupNameOf (gb : Option String) (r : RawRecord) : String :=
  if jsTruthy gb then jsOrStr (getField r (gb.getD "")) "Unassigned"
  else "Default Group"

/-- The display value chosen for a record:
`this.pickValues ? record[this.pickValues] : record.Name || record.Id`. -/
def displayValueOf (pv : Option String) (r : RawRecord) : Option String :=
  if jsTruthy pv then getField r (pv.getD "")
  else jsOrOpt (getField r "Name") (getField r "Id")

/-- One iteration of the `data.forEach` loop of `processQueryResults`:
records with a falsy `Id` are skipped, otherwise the item is appended to its
group's list in the group map. -/
def pqrStep (gb pv : Option String) (m : List (String × List Item)) (r : RawRecord) :
    List (String × List Item) :=
  let recordId := getField r "Id"
  if jsTruthy recordId then
    let g := groupNameOf gb r
    let item : Item := ⟨displayValueOf pv r, recordId.getD "", false⟩
    omapSet m g ((omapGet m g).getD [] ++ [item])
  else m

/-- Source `processQueryResults`: fold the records through the group map, then
convert the map to the rendered group array (collapsed, nothing selected). -/
def processQueryResults (gb pv : Option String) (data : List RawRecord) : List Group :=
  (data.foldl (pqrStep gb pv) []).map (fun p => ⟨p.1, p.2, false, false⟩)

/-! ## Chosen-side view (`updateSelectedGroupsData`) -/

/-- One iteration of the `processedData.forEach` loop of
`updateSelectedGroupsData`: groups with at least one selected item are
`set` into the chosen-groups map. -/
def sgdStep (sel : List SelRecord) (m : List (String × ChosenGroup)) (g : Group) :
    List (String × ChosenGroup) :=
  let selectedInGroup := g.items.filter (fun it => sel.any (fun si => si.id == it.id))
  if selectedInGroup.length > 0 then
    omapSet m g.groupName
      ⟨g.groupName, selectedInGroup.map (fun i => ⟨i.name, i.id⟩), true⟩
  else m

/-- Source `updateSelectedGroupsData`: recompute `selectedGroupsData` from
`processedData` and `selectedItems`. -/
def updateSelectedGroupsData (s : Component) : Component :=
  { s with selectedGroupsData :=
      (s.processedData.foldl (sgdStep s.selectedItems) []).map (fun p => p.2) }

/-- Source `emitSelectionEvent`: the payload the component dispatches, i.e.
`selectedItems` projected to `{name, id}`. -/
def emitPayload (s : Component) : Payload :=
  s.selectedItems.map (fun i => ⟨i.name, i.id⟩)

/-! ## Restoration -/

/-- Source `restoreSelection`: no-op when `_preSelectedRecords` is empty, otherwise
replace `selectedItems` with the pre-selected records, resync every item's
`isSelected` flag and every group's `isAllSelected` rollup, and recompute the
chosen-side view.  (It does not dispatch the `selection` event.) -/
def restoreSelection (s : Component) : Component :=
  if s.preSelectedRecords.isEmpty then s
  else
    let selectedIds := s.preSelectedRecords.map (fun r => r.id)
    let sel := s.preSelectedRecords.map (fun r => (⟨r.name, r.id⟩ : SelRecord))
    let pd := s.processedData.map (fun g =>
      let items := g.items.map (fun it =>
        { it with isSelected := selectedIds.contains it.id })
      { g with items := items,
               isAllSelected := !items.isEmpty && items.all (fun it => it.isSelected) })
    updateSelectedGroupsData { s with selectedItems := sel, processedData := pd }

/-! ## Wire adapter (`wiredData`) -/

/-- The `data` branch of `wiredData`: regroup, then restore if pre-selected
records are pending. -/
def loadSuccess (data : List RawRecord) (s : Component) : Component × Option Payload :=
  let s1 := { s with isLoading := false, error := none,
                     processedData := processQueryResults s.groupBy s.pickValues data }
  (if s1.preSelectedRecords.isEmpty then s1 else restoreSelection s1, none)

/-- The `error` branch of `wiredData`: record the error and empty the
grouping; nothing else is touched. -/
def loadFailure (err : String) (s : Component) : Component × Option Payload :=
  ({ s with isLoading := false, error := some err, processedData := [] }, none)

/-- The still-loading branch of `wiredData`. -/
def loadPending (s : Component) : Component × Option Payload :=
  ({ s with isLoading := true }, none)

/-! ## Staged move protocol and immediate mutations -/

/-- Source `handleItemSelect`: toggle an id in the available-side staging register
(`tempSelectedItems`); pure staging, no event. -/
def handleItemSelect (itemId : String) (isChecked : Bool) (s : Component) :
    Component × Option Payload :=
  if isChecked then
    if s.tempSelectedItems.contains itemId then (s, none)
    else ({ s with tempSelectedItems := s.tempSelectedItems ++ [itemId] }, none)
  else
    ({ s with tempSelectedItems := s.tempSelectedItems.filter (fun i => i != itemId) }, none)

/-- Source `selectChosenItem`: toggle an id in the chosen-side staging register
(`tempChosenItems`); pure staging, no event. -/
def selectChosenItem (itemId : String) (s : Component) : Component × Option Payload :=
  if s.tempChosenItems.contains itemId then
    ({ s with tempChosenItems := s.tempChosenItems.filter (fun i => i != itemId) }, none)
  else
    ({ s with tempChosenItems := s.tempChosenItems ++ [itemId] }, none)

/-- The id→item index built at the top of `moveSelectedToChosen`
(`idToItem.set(item.id, item)` over every group's items). -/
def buildIdMap (pd : List Group) : List (String × Item) :=
  pd.foldl (fun m g => g.items.foldl (fun m it => omapSet m it.id it) m) []

/-- Source `moveSelectedToChosen`: early return when the available-side staging
register is empty; otherwise append the staged items that resolve in the
id→item index and are not already chosen, resync the flags and rollups, clear
the register, recompute the chosen view and dispatch the event. -/
def moveSelectedToChosen (s : Component) : Component × Option Payload :=
  if s.tempSelectedItems.isEmpty then (s, none)
  else
    let idToItem := buildIdMap s.processedData
    let existingIds := s.selectedItems.map (fun i => i.id)
    let itemsToAdd := s.tempSelectedItems.filterMap (fun tid =>
      match omapGet idToItem tid with
      | some i => if existingIds.contains i.id then none
                  else some (⟨i.name, i.id⟩ : SelRecord)
      | none => none)
    let sel := s.selectedItems ++ itemsToAdd
    let pd := s.processedData.map (fun g =>
      let items := g.items.map (fun it =>
        if s.tempSelectedItems.contains it.id then { it with isSelected := true } else it)
      { g with items := items, isAllSelected := items.all (fun it => it.isSelected) })
    let s1 := updateSelectedGroupsData
      { s with selectedItems := sel, processedData := pd, tempSelectedItems := [] }
    (s1, some (emitPayload s1))

/-- Source `moveChosenToAvailable`: early return when the chosen-side staging
register is empty; otherwise drop the staged ids from `selectedItems`, resync
flags and rollups, clear the register, recompute the chosen view and dispatch
the event. -/
def moveChosenToAvailable (s : Component) : Component × Option Payload :=
  if s.tempChosenItems.isEmpty then (s, none)
  else
    let sel := s.selectedItems.filter (fun it => !(s.tempChosenItems.contains it.id))
    let pd := s.processedData.map (fun g =>
      let items := g.items.map (fun it =>
        if s.tempChosenItems.contains it.id then { it with isSelected := false } else it)
      { g with items := items, isAllSelected := items.all (fun it => it.isSelected) })
    let s1 := updateSelectedGroupsData
      { s with selectedItems := sel, processedData := pd, tempChosenItems := [] }
    (s1, some (emitPayload s1))

/-- One iteration of the `processedData.forEach` loop of `handleGroupSelect`;
the accumulator carries `(selectedItems, updatedData)` because the source
mutates `this.selectedItems` inside the loop. -/
def hgsStep (groupName : String) (isChecked : Bool)
    (acc : List SelRecord × List Group) (g : Group) : List SelRecord × List Group :=
  if g.groupName == groupName then
    let updatedItems := g.items.map (fun it => { it with isSelected := isChecked })
    let sel :=
      if isChecked then
        acc.1 ++ (updatedItems.filter
            (fun it => !(acc.1.any (fun si => si.id == it.id)))).map
          (fun it => (⟨it.name, it.id⟩ : SelRecord))
      else
        acc.1.filter (fun r => !((updatedItems.map (fun it => it.id)).contains r.id))
    (sel, acc.2 ++ [{ g with items := updatedItems, isAllSelected := isChecked }])
  else (acc.1, acc.2 ++ [g])

/-- Source `handleGroupSelect` (the `selectGroup(groupKey, checked)` operation):
immediately add (checked) or remove (unchecked) every id of the group, then
recompute the chosen view and dispatch the event. -/
def handleGroupSelect (groupName : String) (isChecked : Bool) (s : Component) :
    Component × Option Payload :=
  let acc := s.processedData.foldl (hgsStep groupName isChecked) (s.selectedItems, [])
  let s1 := updateSelectedGroupsData
    { s with selectedItems := acc.1, processedData := acc.2 }
  (s1, some (emitPayload s1))

/-- Source `removeItem`: immediately drop the id from `selectedItems`, resync the
flags and rollups, recompute the chosen view and dispatch the event.
(The source does not touch either staging register here.) -/
def removeItem (itemIdToRemove : String) (s : Component) : Component × Option Payload :=
  let sel := s.selectedItems.filter (fun item => item.id != itemIdToRemove)
  let pd := s.processedData.map (fun g =>
    let items := g.items.map (fun it =>
      if it.id == itemIdToRemove then { it with isSelected := false } else it)
    { g with items := items, isAllSelected := items.all (fun it => it.isSelected) })
  let s1 := updateSelectedGroupsData { s with selectedItems := sel, processedData := pd }
  (s1, some (emitPayload s1))

/-- One iteration of the `processedData.forEach` loop of `removeGroup`. -/
def rgStep (groupToRemove : String)
    (acc : List SelRecord × List Group) (g : Group) : List SelRecord × List Group :=
  if g.groupName == groupToRemove then
    let itemsToRemove := g.items.map (fun i => i.id)
    let sel := acc.1.filter (fun item => !(itemsToRemove.contains item.id))
    let updatedItems := g.items.map (fun it => { it with isSelected := false })
    (sel, acc.2 ++ [{ g with items := updatedItems, isAllSelected := false }])
  else (acc.1, acc.2 ++ [g])

/-- Source `removeGroup`: immediately drop every id of the group from
`selectedItems`, clear the group's flags and rollup, recompute the chosen
view and dispatch the event. -/
def removeGroup (groupToRemove : String) (s : Component) : Component × Option Payload :=
  let acc := s.processedData.foldl (rgStep groupToRemove) (s.selectedItems, [])
  let s1 := updateSelectedGroupsData
    { s with selectedItems := acc.1, processedData := acc.2 }
  (s1, some (emitPayload s1))

/-! ## Public API -/

/-- Source `getSelectedRecords`: a copy of `selectedItems` (pure read). -/
def getSelectedRecords (s : Component) : List SelRecord :=
  s.selectedItems

/-- Source `resetSelections`: clear the selection, the chosen view, both staging
registers and the pending pre-selection, clear every flag and rollup, and
dispatch the (now empty) event. -/
def resetSelections (s : Component) : Component × Option Payload :=
  let s1 := { s with
    selectedItems := [], selectedGroupsData := [],
    tempSelectedItems := [], tempChosenItems := [], preSelectedRecords := [],
    processedData := s.processedData.map (fun g =>
      { g with isAllSelected := false,
               items := g.items.map (fun it => { it with isSelected := false }) }) }
  (s1, some (emitPayload s1))

/-- Source `setSelectedRecords(records)`: store `records || []` and restore if data
is already loaded (`none` models a `null`/`undefined` argument). -/
def setSelectedRecords (records : Option (List SelRecord)) (s : Component) :
    Component × Option Payload :=
  let s1 := { s with preSelectedRecords := records.getD [] }
  (if s1.processedData.isEmpty then s1 else restoreSelection s1, none)

/-- The `selectedRecords` property setter: like `setSelectedRecords` but the
restore also requires a non-empty pre-selection. -/
def setSelectedRecordsProp (value : Option (List SelRecord)) (s : Component) :
    Component × Option Payload :=
  let s1 := { s with preSelectedRecords := value.getD [] }
  (if !s1.processedData.isEmpty && !s1.preSelectedRecords.isEmpty
   then restoreSelection s1 else s1, none)

/-- Source `toggleGroup`: flip an available-side group's `isExpanded` (view only). -/
def toggleGroup (groupName : String) (s : Component) : Component × Option Payload :=
  ({ s with processedData := s.processedData.map (fun g =>
      if g.groupName == groupName then { g with isExpanded := !g.isExpanded } else g) },
   none)

/-- Source `toggleSelectedGroup`: flip a chosen-side group's `isExpanded`
(view only). -/
def toggleSelectedGroup (groupName : String) (s : Component) : Component × Option Payload :=
  ({ s with selectedGroupsData := s.selectedGroupsData.map (fun g =>
      if g.groupName == groupName then { g with isExpanded := !g.isExpanded } else g) },
   none)

/-! ## Reachable states

One constructor per entry point of the component: the three wire-adapter
branches, the two public setters, the public `resetSelections`, and every
event handler. -/

/-- States reachable from a freshly constructed component by any sequence of
operations. -/
inductive Reachable : Component → Prop
  | init (gb pv : Option String) : Reachable (initState gb pv)
  | loadSuccess (data : List RawRecord) {s : Component} :
      Reachable s → Reachable (loadSuccess data s).1
  | loadFailure (err : String) {s : Component} :
      Reachable s → Reachable (loadFailure err s).1
  | loadPending {s : Component} : Reachable s → Reachable (loadPending s).1
  | setSelected (records : Option (List SelRecord)) {s : Component} :
      Reachable s → Reachable (setSelectedRecords records s).1
  | setSelectedProp (value : Option (List SelRecord)) {s : Component} :
      Reachable s → Reachable (setSelectedRecordsProp value s).1
  | groupSelect (name : String) (c : Bool) {s : Component} :
      Reachable s → Reachable (handleGroupSelect name c s).1
  | itemSelect (i : String) (c : Bool) {s : Component} :
      Reachable s → Reachable (handleItemSelect i c s).1
  | moveToChosen {s : Component} : Reachable s → Reachable (moveSelectedToChosen s).1
  | moveToAvailable {s : Component} : Reachable s → Reachable (moveChosenToAvailable s).1
  | chooseItem (i : String) {s : Component} :
      Reachable s → Reachable (selectChosenItem i s).1
  | remItem (i : String) {s : Component} : Reachable s → Reachable (removeItem i s).1
  | remGroup (name : String) {s : Component} :
      Reachable s → Reachable (removeGroup name s).1
  | reset {s : Component} : Reachable s → Reachable (resetSelections s).1
  | togGroup (name : String) {s : Component} : Reachable s → Reachable (toggleGroup name s).1
  | togSelGroup (name : String) {s : Component} :
      Reachable s → Reachable (toggleSelectedGroup name s).1

/-! ## Specification-side definitions

These two definitions are written from the specification's words, to be
compared with the state the source code actually produces. -/

/-- Spec §3 invariant 2 / §8, as the claim states it: every available group's
`allSelected` rollup is `true` exactly when the group is non-empty and every
member id is in the SelectionSet (`selectedItems`). -/
def allSelectedSpecInv (s : Component) : Prop :=
  ∀ g ∈ s.processedData,
    (g.isAllSelected = true ↔
      (g.items ≠ [] ∧ ∀ it ∈ g.items, ∃ r ∈ s.selectedItems, r.id = it.id))

/-- Spec §3 invariant 3 / §8, written from the spec's words: the SelectionSet
partitioned by group key, restricted to ids with a known group, with no
empty-group entries (bucket order normalized to the grouping's group order,
within-bucket order to the group's item order). -/
def chosenPartition (pd : List Group) (sel : List SelRecord) : List ChosenGroup :=
  pd.filterMap (fun g =>
    let inGroup := g.items.filter (fun it => sel.any (fun si => si.id == it.id))
    if inGroup.isEmpty then none
    else some ⟨g.groupName, inGroup.map (fun i => ⟨i.name, i.id⟩), true⟩)

/-! ## Concrete fixtures (Scenario A data of spec §8) -/

/-- Record `{Id:'1', Name:'A', Cat:'X'}`. -/
def rec1 : RawRecord := [("Id", "1"), ("Name", "A"), ("Cat", "X")]

/-- A one-record data load. -/
def data1 : List RawRecord := [rec1]

/-- The component after loading `data1` grouped by `Cat`. -/
def sLoaded : Component := (loadSuccess data1 (initState (some "Cat") none)).1

/-- State `sLoaded` after selecting the whole group `X` (SelectionSet = `['1']`). -/
def sSelected : Component := (handleGroupSelect "X" true sLoaded).1

/-- State `sSelected` after the wire adapter re-fires with the same data (a reload
with no pending pre-selection, so `restoreSelection` is skipped). -/
def sReloaded : Component := (loadSuccess data1 sSelected).1

/-! ## Basic lemmas about the ordered map -/

@[simp] theorem omapGet_nil (k : String) : omapGet ([] : List (String × α)) k = none := rfl

theorem omapGet_cons (k0 : String) (v0 : α) (rest : List (String × α)) (k : String) :
    omapGet ((k0, v0) :: rest) k = if k0 = k then some v0 else omapGet rest k := by
  by_cases h : k0 = k
  · simp [omapGet, List.find?, h]
  · have hb : (k0 == k) = false := by simpa using h
    simp [omapGet, List.find?, hb, h]

theorem omapSet_cons (k0 : String) (v0 : α) (rest : List (String × α)) (k : String) (v : α) :
    omapSet ((k0, v0) :: rest) k v =
      if k0 = k then (k, v) :: rest else (k0, v0) :: omapSet rest k v := by
  by_cases h : k0 = k
  · simp [omapSet, h]
  · have hb : (k0 == k) = false := by simpa using h
    simp [omapSet, hb, h]

theorem omapGet_omapSet (m : List (String × α)) (k k' : String) (v : α) :
    omapGet (omapSet m k v) k' = if k = k' then some v else omapGet m k' := by
  induction m with
  | nil =>
    show omapGet [(k, v)] k' = _
    rw [omapGet_cons]
  | cons p rest ih =>
    obtain ⟨k0, v0⟩ := p
    rw [omapSet_cons]
    by_cases h0 : k0 = k
    · subst h0
      rw [if_pos rfl, omapGet_cons, omapGet_cons]
      by_cases hk : k0 = k' <;> simp [hk]
    · rw [if_neg h0, omapGet_cons, ih, omapGet_cons]
      by_cases h1 : k0 = k' <;> by_cases h2 : k = k' <;> simp [h1, h2]
      exact absurd (h1.trans h2.symm) h0

theorem mem_omapSet {m : List (String × α)} {k : String} {v : α} {p : String × α}
    (hp : p ∈ omapSet m k v) : p = (k, v) ∨ p ∈ m := by
  induction m with
  | nil => simpa [omapSet] using hp
  | cons q rest ih =>
    obtain ⟨k0, v0⟩ := q
    rw [omapSet_cons] at hp
    by_cases h0 : k0 = k
    · rw [if_pos h0] at hp
      rcases List.mem_cons.1 hp with h | h
      · exact Or.inl h
      · exact Or.inr (List.mem_cons_of_mem _ h)
    · rw [if_neg h0] at hp
      rcases List.mem_cons.1 hp with h | h
      · exact Or.inr (by simp [h])
      · rcases ih h with h1 | h1
        · exact Or.inl h1
        · exact Or.inr (List.mem_cons_of_mem _ h1)

theorem omapGet_mem {m : List (String × α)} {k : String} {v : α}
    (h : omapGet m k = some v) : (k, v) ∈ m := by
  induction m with
  | nil => simp [omapGet] at h
  | cons q rest ih =>
    obtain ⟨k0, v0⟩ := q
    rw [omapGet_cons] at h
    by_cases h0 : k0 = k
    · rw [if_pos h0] at h
      subst h0
      obtain rfl : v0 = v := by simpa using h
      exact List.mem_cons_self _ _
    · rw [if_neg h0] at h
      exact List.mem_cons_of_mem _ (ih h)

theorem omapSet_eq_append {m : List (String × α)} {k : String} (v : α)
    (h : ∀ p ∈ m, p.1 ≠ k) : omapSet m k v = m ++ [(k, v)] := by
  induction m with
  | nil => simp [omapSet]
  | cons q rest ih =>
    obtain ⟨k0, v0⟩ := q
    have hk0 : k0 ≠ k := h (k0, v0) (List.mem_cons_self _ _)
    rw [omapSet_cons, if_neg hk0, List.cons_append]
    exact congrArg _ (ih (fun p hp => h p (List.mem_cons_of_mem _ hp)))

/-! ## Generic fold lemmas -/

theorem foldl_preserve {α β : Type _} {P : β → Prop} (step : β → α → β)
    (hstep : ∀ b a, P b → P (step b a)) :
    ∀ (l : List α) (b : β), P b → P (l.foldl step b) := by
  intro l
  induction l with
  | nil => intro b hb; simpa using hb
  | cons a rest ih => intro b hb; exact ih (step b a) (hstep b a hb)

theorem find?_append_or {α : Type _} (l₁ l₂ : List α) (p : α → Bool) :
    (l₁ ++ l₂).find? p = Option.or (l₁.find? p) (l₂.find? p) := by
  induction l₁ with
  | nil => simp [Option.or]
  | cons a rest ih =>
    by_cases h : p a
    · simp [List.find?, h, Option.or]
    · simp only [List.cons_append, List.find?]
      rw [Bool.not_eq_true] at h
      simp [h, ih]

/-! ## Projections of `updateSelectedGroupsData` -/

@[simp] theorem updateSGD_processedData (s : Component) :
    (updateSelectedGroupsData s).processedData = s.processedData := rfl

@[simp] theorem updateSGD_selectedItems (s : Component) :
    (updateSelectedGroupsData s).selectedItems = s.selectedItems := rfl

@[simp] theorem updateSGD_tempSelectedItems (s : Component) :
    (updateSelectedGroupsData s).tempSelectedItems = s.tempSelectedItems := rfl

@[simp] theorem updateSGD_tempChosenItems (s : Component) :
    (updateSelectedGroupsData s).tempChosenItems = s.tempChosenItems := rfl

@[simp] theorem updateSGD_preSelectedRecords (s : Component) :
    (updateSelectedGroupsData s).preSelectedRecords = s.preSelectedRecords := rfl

@[simp] theorem updateSGD_error (s : Component) :
    (updateSelectedGroupsData s).error = s.error := rfl

/-! ## The rollup-flag invariant

After every operation, every available group is non-empty and its
`isAllSelected` rollup equals the conjunction of its items' `isSelected`
flags.  This is the invariant the code actually maintains; whether the flags
themselves agree with `selectedItems` is a separate question (they do not
after a reload that skips restoration, see the claim C2 counterexample). -/

/-- Rollup consistency of a single available group. -/
def groupFlagsOk (g : Group) : Prop :=
  g.items ≠ [] ∧ g.isAllSelected = g.items.all (fun it => it.isSelected)

/-- Rollup consistency of the whole available side. -/
def flagsOk (s : Component) : Prop :=
  ∀ g ∈ s.processedData, groupFlagsOk g

theorem all_isSelected_map_const (l : List Item) (c : Bool) (h : l ≠ []) :
    ((l.map (fun it => { it with isSelected := c })).all (fun it => it.isSelected)) = c := by
  cases l with
  | nil => exact absurd rfl h
  | cons a rest =>
    cases c
    · simp
    · simp

theorem all_isSelected_false (l : List Item) (h : l ≠ [])
    (hall : ∀ it ∈ l, it.isSelected = false) :
    (l.all (fun it => it.isSelected)) = false := by
  cases l with
  | nil => exact absurd rfl h
  | cons a rest => simp [hall a (List.mem_cons_self _ _)]

theorem flagsOk_recompute {pd : List Group} (f : Item → Item)
    (h : ∀ g ∈ pd, g.items ≠ []) :
    ∀ g' ∈ pd.map (fun g =>
      { g with items := g.items.map f,
               isAllSelected := (g.items.map f).all (fun it => it.isSelected) }),
      groupFlagsOk g' := by
  intro g' hg'
  rcases List.mem_map.1 hg' with ⟨g, hg, rfl⟩
  exact ⟨by simpa using h g hg, rfl⟩

theorem flagsOk_processQueryResults (gb pv : Option String) (data : List RawRecord) :
    ∀ g ∈ processQueryResults gb pv data,
      g.items ≠ [] ∧ g.isAllSelected = false ∧ ∀ it ∈ g.items, it.isSelected = false := by
  intro g hg
  unfold processQueryResults at hg
  rcases List.mem_map.1 hg with ⟨p, hp, rfl⟩
  have key : ∀ q ∈ data.foldl (pqrStep gb pv) ([] : List (String × List Item)),
      q.2 ≠ [] ∧ ∀ it ∈ q.2, it.isSelected = false := by
    refine foldl_preserve (P := fun m =>
        ∀ q ∈ m, q.2 ≠ [] ∧ ∀ it ∈ q.2, it.isSelected = false)
      (pqrStep gb pv) ?_ data [] (fun q hq => absurd hq (List.not_mem_nil q))
    intro m r hm
    unfold pqrStep
    by_cases hid : jsTruthy (getField r "Id")
    · simp only [hid, if_true]
      intro q hq
      rcases mem_omapSet hq with h1 | h1
      · subst h1
        constructor
        · simp
        · intro it hit
          rcases List.mem_append.1 hit with h2 | h2
          · rcases ho : omapGet m (groupNameOf gb r) with _ | old
            · rw [ho] at h2; simp at h2
            · rw [ho] at h2
              exact (hm _ (omapGet_mem ho)).2 it (by simpa using h2)
          · simp only [List.mem_singleton] at h2
            subst h2
            rfl
      · exact hm q h1
    · simp only [hid, if_false]
      exact hm
  rcases key p hp with ⟨h1, h2⟩
  exact ⟨h1, rfl, h2⟩

theorem flagsOk_of_processedData_eq {s t : Component}
    (h : flagsOk s) (heq : t.processedData = s.processedData) : flagsOk t := by
  intro g hg
  rw [heq] at hg
  exact h g hg

theorem groupFlagsOk_restoreShape (g : Group) (q : Item → Bool) (hne : g.items ≠ []) :
    groupFlagsOk { g with
      items := g.items.map (fun it => { it with isSelected := q it }),
      isAllSelected :=
        !(g.items.map (fun it => { it with isSelected := q it })).isEmpty
          && (g.items.map (fun it => { it with isSelected := q it })).all
               (fun it => it.isSelected) } := by
  have hie : (g.items.map (fun it => { it with isSelected := q it })).isEmpty = false := by
    simp [List.isEmpty_iff, hne]
  refine ⟨by simpa using hne, ?_⟩
  show (!(g.items.map (fun it => { it with isSelected := q it })).isEmpty && _) = _
  rw [hie]
  simp

theorem flagsOk_restoreSelection (s : Component) (h : flagsOk s) :
    flagsOk (restoreSelection s) := by
  unfold restoreSelection
  by_cases hp : s.preSelectedRecords.isEmpty
  · simpa [hp] using h
  · rw [Bool.not_eq_true] at hp
    have hcond : ¬ (s.preSelectedRecords.isEmpty = true) := by simp [hp]
    rw [if_neg hcond]
    intro g' hg'
    simp only [updateSGD_processedData] at hg'
    rcases List.mem_map.1 hg' with ⟨g, hg, rfl⟩
    exact groupFlagsOk_restoreShape g
      (fun it => (s.preSelectedRecords.map (fun r => r.id)).contains it.id) (h g hg).1

theorem flagsOk_loadSuccess (data : List RawRecord) (s : Component) :
    flagsOk (loadSuccess data s).1 := by
  unfold loadSuccess
  have h1 : flagsOk { s with
      isLoading := false,
      error := none,
      processedData := processQueryResults s.groupBy s.pickValues data } := by
    intro g hg
    rcases flagsOk_processQueryResults s.groupBy s.pickValues data g hg with ⟨ha, hb, hc⟩
    exact ⟨ha, by rw [hb, all_isSelected_false g.items ha hc]⟩
  by_cases hp : s.preSelectedRecords.isEmpty
  · simpa [hp] using h1
  · rw [Bool.not_eq_true] at hp
    simpa [hp] using flagsOk_restoreSelection _ h1

theorem flagsOk_mapRecompute {s : Component} (f : Item → Item) (h : flagsOk s)
    {t : Component}
    (heq : t.processedData = s.processedData.map (fun g =>
      { g with items := g.items.map f,
               isAllSelected := (g.items.map f).all (fun it => it.isSelected) })) :
    flagsOk t := by
  intro g' hg'
  rw [heq] at hg'
  rcases List.mem_map.1 hg' with ⟨g, hg, rfl⟩
  exact ⟨by simpa using (h g hg).1, rfl⟩

theorem flagsOk_moveSelectedToChosen (s : Component) (h : flagsOk s) :
    flagsOk (moveSelectedToChosen s).1 := by
  unfold moveSelectedToChosen
  by_cases hp : s.tempSelectedItems.isEmpty
  · simpa [hp] using h
  · rw [Bool.not_eq_true] at hp
    have hcond : ¬ (s.tempSelectedItems.isEmpty = true) := by simp [hp]
    rw [if_neg hcond]
    exact flagsOk_mapRecompute
      (fun it => if s.tempSelectedItems.contains it.id then
        { it with isSelected := true } else it) h rfl

theorem flagsOk_moveChosenToAvailable (s : Component) (h : flagsOk s) :
    flagsOk (moveChosenToAvailable s).1 := by
  unfold moveChosenToAvailable
  by_cases hp : s.tempChosenItems.isEmpty
  · simpa [hp] using h
  · rw [Bool.not_eq_true] at hp
    have hcond : ¬ (s.tempChosenItems.isEmpty = true) := by simp [hp]
    rw [if_neg hcond]
    exact flagsOk_mapRecompute
      (fun it => if s.tempChosenItems.contains it.id then
        { it with isSelected := false } else it) h rfl

theorem flagsOk_removeItem (i : String) (s : Component) (h : flagsOk s) :
    flagsOk (removeItem i s).1 := by
  unfold removeItem
  exact flagsOk_mapRecompute
    (fun it => if it.id == i then { it with isSelected := false } else it) h rfl

/-- The `selectedItems` half of one `handleGroupSelect` loop iteration. -/
def hgsSelStep (groupName : String) (isChecked : Bool) (sel : List SelRecord) (g : Group) :
    List SelRecord :=
  let updatedItems := g.items.map (fun it => { it with isSelected := isChecked })
  if g.groupName == groupName then
    if isChecked then
      sel ++ (updatedItems.filter
          (fun it => !(sel.any (fun si => si.id == it.id)))).map
        (fun it => (⟨it.name, it.id⟩ : SelRecord))
    else
      sel.filter (fun r => !((updatedItems.map (fun it => it.id)).contains r.id))
  else sel

theorem foldl_hgsStep_fst (name : String) (c : Bool) (gs : List Group)
    (sel : List SelRecord) (acc : List Group) :
    (gs.foldl (hgsStep name c) (sel, acc)).1 = gs.foldl (hgsSelStep name c) sel := by
  induction gs generalizing sel acc with
  | nil => rfl
  | cons g rest ih =>
    simp only [List.foldl_cons]
    by_cases hname : (g.groupName == name)
    · simp only [hgsStep, hgsSelStep, hname, if_true]
      by_cases hc : c
      · subst hc; exact ih _ _
      · rw [Bool.not_eq_true] at hc; subst hc; exact ih _ _
    · rw [Bool.not_eq_true] at hname
      simp only [hgsStep, hgsSelStep, hname, Bool.false_eq_true, if_false]
      exact ih _ _

theorem foldl_hgsStep_snd (name : String) (c : Bool) (gs : List Group)
    (sel : List SelRecord) (acc : List Group) :
    (gs.foldl (hgsStep name c) (sel, acc)).2 = acc ++ gs.map (fun g =>
      if g.groupName == name then
        { g with items := g.items.map (fun it => { it with isSelected := c }),
                 isAllSelected := c }
      else g) := by
  induction gs generalizing sel acc with
  | nil => simp
  | cons g rest ih =>
    simp only [List.foldl_cons, List.map_cons]
    by_cases hname : (g.groupName == name)
    · simp only [hgsStep, hname, if_true]
      rw [ih]
      simp
    · rw [Bool.not_eq_true] at hname
      simp only [hgsStep, hname, Bool.false_eq_true, if_false]
      rw [ih]
      simp

theorem handleGroupSelect_processedData (name : String) (c : Bool) (s : Component) :
    (handleGroupSelect name c s).1.processedData = s.processedData.map (fun g =>
      if g.groupName == name then
        { g with items := g.items.map (fun it => { it with isSelected := c }),
                 isAllSelected := c }
      else g) := by
  show (updateSelectedGroupsData _).processedData = _
  rw [updateSGD_processedData]
  show (s.processedData.foldl (hgsStep name c) (s.selectedItems, [])).2 = _
  rw [foldl_hgsStep_snd]
  rfl

theorem flagsOk_handleGroupSelect (name : String) (c : Bool) (s : Component)
    (h : flagsOk s) : flagsOk (handleGroupSelect name c s).1 := by
  intro g' hg'
  rw [handleGroupSelect_processedData] at hg'
  rcases List.mem_map.1 hg' with ⟨g, hg, rfl⟩
  by_cases hname : (g.groupName == name)
  · simp only [hname, if_true]
    refine ⟨by simpa using (h g hg).1, ?_⟩
    rw [all_isSelected_map_const _ _ (h g hg).1]
  · rw [Bool.not_eq_true] at hname
    simp only [hname, Bool.false_eq_true, if_false]
    exact h g hg

/-- The `selectedItems` half of one `removeGroup` loop iteration. -/
def rgSelStep (groupToRemove : String) (sel : List SelRecord) (g : Group) :
    List SelRecord :=
  if g.groupName == groupToRemove then
    sel.filter (fun item => !((g.items.map (fun i => i.id)).contains item.id))
  else sel

theorem foldl_rgStep_fst (name : String) (gs : List Group)
    (sel : List SelRecord) (acc : List Group) :
    (gs.foldl (rgStep name) (sel, acc)).1 = gs.foldl (rgSelStep name) sel := by
  induction gs generalizing sel acc with
  | nil => rfl
  | cons g rest ih =>
    simp only [List.foldl_cons]
    by_cases hname : (g.groupName == name)
    · simp only [rgStep, rgSelStep, hname, if_true]
      exact ih _ _
    · rw [Bool.not_eq_true] at hname
      simp only [rgStep, rgSelStep, hname, Bool.false_eq_true, if_false]
      exact ih _ _

theorem foldl_rgStep_snd (name : String) (gs : List Group)
    (sel : List SelRecord) (acc : List Group) :
    (gs.foldl (rgStep name) (sel, acc)).2 = acc ++ gs.map (fun g =>
      if g.groupName == name then
        { g with items := g.items.map (fun it => { it with isSelected := false }),
                 isAllSelected := false }
      else g) := by
  induction gs generalizing sel acc with
  | nil => simp
  | cons g rest ih =>
    simp only [List.foldl_cons, List.map_cons]
    by_cases hname : (g.groupName == name)
    · simp only [rgStep, hname, if_true]
      rw [ih]
      simp
    · rw [Bool.not_eq_true] at hname
      simp only [rgStep, hname, Bool.false_eq_true, if_false]
      rw [ih]
      simp

theorem removeGroup_processedData (name : String) (s : Component) :
    (removeGroup name s).1.processedData = s.processedData.map (fun g =>
      if g.groupName == name then
        { g with items := g.items.map (fun it => { it with isSelected := false }),
                 isAllSelected := false }
      else g) := by
  show (updateSelectedGroupsData _).processedData = _
  rw [updateSGD_processedData]
  show (s.processedData.foldl (rgStep name) (s.selectedItems, [])).2 = _
  rw [foldl_rgStep_snd]
  rfl

theorem flagsOk_removeGroup (name : String) (s : Component) (h : flagsOk s) :
    flagsOk (removeGroup name s).1 := by
  intro g' hg'
  rw [removeGroup_processedData] at hg'
  rcases List.mem_map.1 hg' with ⟨g, hg, rfl⟩
  by_cases hname : (g.groupName == name)
  · simp only [hname, if_true]
    refine ⟨by simpa using (h g hg).1, ?_⟩
    rw [all_isSelected_map_const _ _ (h g hg).1]
  · rw [Bool.not_eq_true] at hname
    simp only [hname, Bool.false_eq_true, if_false]
    exact h g hg

theorem flagsOk_resetSelections (s : Component) (h : flagsOk s) :
    flagsOk (resetSelections s).1 := by
  intro g' hg'
  simp only [resetSelections] at hg'
  rcases List.mem_map.1 hg' with ⟨g, hg, rfl⟩
  refine ⟨by simpa using (h g hg).1, ?_⟩
  rw [all_isSelected_map_const _ _ (h g hg).1]

theorem flagsOk_setSelectedRecords (records : Option (List SelRecord)) (s : Component)
    (h : flagsOk s) : flagsOk (setSelectedRecords records s).1 := by
  unfold setSelectedRecords
  have h1 : flagsOk { s with preSelectedRecords := records.getD [] } :=
    flagsOk_of_processedData_eq h rfl
  by_cases hp : ({ s with preSelectedRecords := records.getD [] } : Component).processedData.isEmpty
  · simpa [hp] using h1
  · rw [Bool.not_eq_true] at hp
    simpa [hp] using flagsOk_restoreSelection _ h1

theorem flagsOk_setSelectedRecordsProp (value : Option (List SelRecord)) (s : Component)
    (h : flagsOk s) : flagsOk (setSelectedRecordsProp value s).1 := by
  unfold setSelectedRecordsProp
  have h1 : flagsOk { s with preSelectedRecords := value.getD [] } :=
    flagsOk_of_processedData_eq h rfl
  by_cases hp : (!({ s with preSelectedRecords := value.getD [] } : Component).processedData.isEmpty
      && !({ s with preSelectedRecords := value.getD [] } : Component).preSelectedRecords.isEmpty)
  · simpa [hp] using flagsOk_restoreSelection _ h1
  · rw [Bool.not_eq_true] at hp
    simpa [hp] using h1

theorem flagsOk_handleItemSelect (i : String) (c : Bool) (s : Component)
    (h : flagsOk s) : flagsOk (handleItemSelect i c s).1 := by
  unfold handleItemSelect
  by_cases hc : c
  · subst hc
    rw [if_pos rfl]
    by_cases hm : s.tempSelectedItems.contains i
    · rw [if_pos hm]
      exact h
    · rw [if_neg hm]
      exact flagsOk_of_processedData_eq h rfl
  · rw [Bool.not_eq_true] at hc
    subst hc
    rw [if_neg (by simp)]
    exact flagsOk_of_processedData_eq h rfl

theorem flagsOk_selectChosenItem (i : String) (s : Component)
    (h : flagsOk s) : flagsOk (selectChosenItem i s).1 := by
  unfold selectChosenItem
  by_cases hm : s.tempChosenItems.contains i
  · rw [if_pos hm]
    exact flagsOk_of_processedData_eq h rfl
  · rw [if_neg hm]
    exact flagsOk_of_processedData_eq h rfl

theorem flagsOk_toggleGroup (name : String) (s : Component)
    (h : flagsOk s) : flagsOk (toggleGroup name s).1 := by
  intro g' hg'
  simp only [toggleGroup] at hg'
  rcases List.mem_map.1 hg' with ⟨g, hg, rfl⟩
  by_cases hname : (g.groupName == name)
  · simp only [hname, if_true]
    exact h g hg
  · rw [Bool.not_eq_true] at hname
    simp only [hname, Bool.false_eq_true, if_false]
    exact h g hg

theorem flagsOk_toggleSelectedGroup (name : String) (s : Component)
    (h : flagsOk s) : flagsOk (toggleSelectedGroup name s).1 :=
  flagsOk_of_processedData_eq h rfl

theorem flagsOk_loadFailure (err : String) (s : Component) :
    flagsOk (loadFailure err s).1 := by
  intro g hg
  simp [loadFailure] at hg

theorem flagsOk_loadPending (s : Component) (h : flagsOk s) :
    flagsOk (loadPending s).1 :=
  flagsOk_of_processedData_eq h rfl

theorem flagsOk_initState (gb pv : Option String) : flagsOk (initState gb pv) := by
  intro g hg
  simp [initState] at hg

/-- Every reachable state satisfies the rollup-flag invariant. -/
theorem flagsOk_of_reachable {s : Component} (h : Reachable s) : flagsOk s := by
  induction h with
  | init gb pv => exact flagsOk_initState gb pv
  | loadSuccess data h ih => exact flagsOk_loadSuccess data _
  | loadFailure err h ih => exact flagsOk_loadFailure err _
  | loadPending h ih => exact flagsOk_loadPending _ ih
  | setSelected records h ih => exact flagsOk_setSelectedRecords records _ ih
  | setSelectedProp value h ih => exact flagsOk_setSelectedRecordsProp value _ ih
  | groupSelect name c h ih => exact flagsOk_handleGroupSelect name c _ ih
  | itemSelect i c h ih => exact flagsOk_handleItemSelect i c _ ih
  | moveToChosen h ih => exact flagsOk_moveSelectedToChosen _ ih
  | moveToAvailable h ih => exact flagsOk_moveChosenToAvailable _ ih
  | chooseItem i h ih => exact flagsOk_selectChosenItem i _ ih
  | remItem i h ih => exact flagsOk_removeItem i _ ih
  | remGroup name h ih => exact flagsOk_removeGroup name _ ih
  | reset h ih => exact flagsOk_resetSelections _ ih
  | togGroup name h ih => exact flagsOk_toggleGroup name _ ih
  | togSelGroup name h ih => exact flagsOk_toggleSelectedGroup name _ ih

/-! ## Characterization of the chosen-side view

Under distinct group names (which `processQueryResults` guarantees, since its
group map is keyed by name), the chosen-groups map built by
`updateSelectedGroupsData` is exactly the spec-side partition
`chosenPartition`. -/

theorem foldl_sgdStep_eq (sel : List SelRecord) (gs : List Group) :
    ∀ (m : List (String × ChosenGroup)),
      (∀ p ∈ m, ∀ g' ∈ gs, p.1 ≠ g'.groupName) →
      ((gs.map (fun g => g.groupName)).Nodup) →
      (gs.foldl (sgdStep sel) m).map (fun p => p.2)
        = m.map (fun p => p.2) ++ chosenPartition gs sel := by
  induction gs with
  | nil =>
    intro m _ _
    simp [chosenPartition]
  | cons g rest ih =>
    intro m hdisj hnodup
    simp only [List.foldl_cons]
    by_cases hemp : (g.items.filter (fun it => sel.any (fun si => si.id == it.id))) = []
    · have hstep : sgdStep sel m g = m := by
        unfold sgdStep
        rw [hemp]
        rfl
      have hpart : chosenPartition (g :: rest) sel = chosenPartition rest sel := by
        unfold chosenPartition
        rw [List.filterMap_cons]
        simp [hemp]
      rw [hstep, hpart]
      exact ih m (fun p hp g' hg' => hdisj p hp g' (List.mem_cons_of_mem _ hg'))
        (List.Nodup.of_cons hnodup)
    · have hne : 0 < (g.items.filter (fun it => sel.any (fun si => si.id == it.id))).length :=
        List.length_pos.2 hemp
      have hkey : ∀ p ∈ m, p.1 ≠ g.groupName :=
        fun p hp => hdisj p hp g (List.mem_cons_self _ _)
      have hstep : sgdStep sel m g = m ++ [(g.groupName,
          ⟨g.groupName,
           (g.items.filter (fun it => sel.any (fun si => si.id == it.id))).map
             (fun i => ⟨i.name, i.id⟩), true⟩)] := by
        unfold sgdStep
        rw [if_pos hne]
        exact omapSet_eq_append _ hkey
      have hknotin : ∀ g' ∈ rest, g.groupName ≠ g'.groupName := by
        intro g' hg' heq
        have h1 : g.groupName ∉ rest.map (fun g => g.groupName) :=
          (List.nodup_cons.1 hnodup).1
        exact h1 (heq ▸ List.mem_map_of_mem _ hg')
      have hdisj' : ∀ p ∈ m ++ [(g.groupName,
          (⟨g.groupName,
           (g.items.filter (fun it => sel.any (fun si => si.id == it.id))).map
             (fun i => ⟨i.name, i.id⟩), true⟩ : ChosenGroup))],
          ∀ g' ∈ rest, p.1 ≠ g'.groupName := by
        intro p hp g' hg'
        rcases List.mem_append.1 hp with h1 | h1
        · exact hdisj p h1 g' (List.mem_cons_of_mem _ hg')
        · simp only [List.mem_singleton] at h1
          subst h1
          exact hknotin g' hg'
      have hpart : chosenPartition (g :: rest) sel =
          (⟨g.groupName,
           (g.items.filter (fun it => sel.any (fun si => si.id == it.id))).map
             (fun i => ⟨i.name, i.id⟩), true⟩ : ChosenGroup) :: chosenPartition rest sel := by
        unfold chosenPartition
        rw [List.filterMap_cons]
        have hie : (g.items.filter (fun it => sel.any (fun si => si.id == it.id))).isEmpty
            = false := by
          simp [List.isEmpty_iff, hemp]
        simp only [hie]
        rfl
      rw [hstep, ih _ hdisj' (List.Nodup.of_cons hnodup), hpart]
      simp

theorem updateSGD_selectedGroupsData_eq (s : Component)
    (h : (s.processedData.map (fun g => g.groupName)).Nodup) :
    (updateSelectedGroupsData s).selectedGroupsData
      = chosenPartition s.processedData s.selectedItems := by
  show (s.processedData.foldl (sgdStep s.selectedItems) []).map (fun p => p.2) = _
  rw [foldl_sgdStep_eq s.selectedItems s.processedData []
    (fun p hp => absurd hp (List.not_mem_nil p)) h]
  simp

theorem map_groupName_map (pd : List Group) (F : Group → Group)
    (hF : ∀ g, (F g).groupName = g.groupName) :
    (pd.map F).map (fun g => g.groupName) = pd.map (fun g => g.groupName) := by
  rw [List.map_map]
  exact List.map_congr_left (fun g _ => hF g)

theorem removeItem_chosenView (i : String) (s : Component)
    (h : (s.processedData.map (fun g => g.groupName)).Nodup) :
    (removeItem i s).1.selectedGroupsData
      = chosenPartition (removeItem i s).1.processedData (removeItem i s).1.selectedItems := by
  have hn : ((s.processedData.map (fun g =>
      let items := g.items.map (fun it =>
        if it.id == i then { it with isSelected := false } else it)
      { g with items := items,
               isAllSelected := items.all (fun it => it.isSelected) })).map
      (fun g => g.groupName)).Nodup := by
    rw [map_groupName_map]
    · exact h
    · intro g
      rfl
  exact updateSGD_selectedGroupsData_eq _ hn

theorem handleGroupSelect_chosenView (name : String) (c : Bool) (s : Component)
    (h : (s.processedData.map (fun g => g.groupName)).Nodup) :
    (handleGroupSelect name c s).1.selectedGroupsData
      = chosenPartition (handleGroupSelect name c s).1.processedData
          (handleGroupSelect name c s).1.selectedItems := by
  have hn : (((s.processedData.foldl (hgsStep name c) (s.selectedItems, [])).2).map
      (fun g => g.groupName)).Nodup := by
    rw [foldl_hgsStep_snd]
    simp only [List.nil_append]
    rw [map_groupName_map]
    · exact h
    · intro g
      by_cases hc : (g.groupName == name) <;> simp [hc]
  exact updateSGD_selectedGroupsData_eq _ hn

theorem removeGroup_chosenView (name : String) (s : Component)
    (h : (s.processedData.map (fun g => g.groupName)).Nodup) :
    (removeGroup name s).1.selectedGroupsData
      = chosenPartition (removeGroup name s).1.processedData
          (removeGroup name s).1.selectedItems := by
  have hn : (((s.processedData.foldl (rgStep name) (s.selectedItems, [])).2).map
      (fun g => g.groupName)).Nodup := by
    rw [foldl_rgStep_snd]
    simp only [List.nil_append]
    rw [map_groupName_map]
    · exact h
    · intro g
      by_cases hc : (g.groupName == name) <;> simp [hc]
  exact updateSGD_selectedGroupsData_eq _ hn

theorem moveSelectedToChosen_chosenView (s : Component)
    (hne : s.tempSelectedItems ≠ [])
    (h : (s.processedData.map (fun g => g.groupName)).Nodup) :
    (moveSelectedToChosen s).1.selectedGroupsData
      = chosenPartition (moveSelectedToChosen s).1.processedData
          (moveSelectedToChosen s).1.selectedItems := by
  unfold moveSelectedToChosen
  rw [if_neg (by simp [List.isEmpty_iff, hne])]
  have hn : ((s.processedData.map (fun g =>
      let items := g.items.map (fun it =>
        if s.tempSelectedItems.contains it.id then { it with isSelected := true } else it)
      { g with items := items,
               isAllSelected := items.all (fun it => it.isSelected) })).map
      (fun g => g.groupName)).Nodup := by
    rw [map_groupName_map]
    · exact h
    · intro g
      rfl
  exact updateSGD_selectedGroupsData_eq _ hn

theorem moveChosenToAvailable_chosenView (s : Component)
    (hne : s.tempChosenItems ≠ [])
    (h : (s.processedData.map (fun g => g.groupName)).Nodup) :
    (moveChosenToAvailable s).1.selectedGroupsData
      = chosenPartition (moveChosenToAvailable s).1.processedData
          (moveChosenToAvailable s).1.selectedItems := by
  unfold moveChosenToAvailable
  rw [if_neg (by simp [List.isEmpty_iff, hne])]
  have hn : ((s.processedData.map (fun g =>
      let items := g.items.map (fun it =>
        if s.tempChosenItems.contains it.id then { it with isSelected := false } else it)
      { g with items := items,
               isAllSelected := items.all (fun it => it.isSelected) })).map
      (fun g => g.groupName)).Nodup := by
    rw [map_groupName_map]
    · exact h
    · intro g
      rfl
  exact updateSGD_selectedGroupsData_eq _ hn

theorem restoreSelection_chosenView (s : Component)
    (hne : s.preSelectedRecords ≠ [])
    (h : (s.processedData.map (fun g => g.groupName)).Nodup) :
    (restoreSelection s).selectedGroupsData
      = chosenPartition (restoreSelection s).processedData
          (restoreSelection s).selectedItems := by
  unfold restoreSelection
  rw [if_neg (by simp [List.isEmpty_iff, hne])]
  have hn : ((s.processedData.map (fun g =>
      let items := g.items.map (fun it =>
        { it with isSelected :=
            (s.preSelectedRecords.map (fun r => r.id)).contains it.id })
      { g with items := items,
               isAllSelected :=
                 !items.isEmpty && items.all (fun it => it.isSelected) })).map
      (fun g => g.groupName)).Nodup := by
    rw [map_groupName_map]
    · exact h
    · intro g
      rfl
  exact updateSGD_selectedGroupsData_eq _ hn

/-! ## Characterization of `moveSelectedToChosen` -/

/-- All loaded items, in grouping order (flattening of the available
groups). -/
def allItems (pd : List Group) : List Item :=
  (pd.map (fun g => g.items)).flatten

theorem buildIdMap_foldl (pd : List Group) :
    buildIdMap pd = (allItems pd).foldl (fun m it => omapSet m it.id it) [] := by
  suffices h : ∀ (m0 : List (String × Item)),
      pd.foldl (fun m g => g.items.foldl (fun m it => omapSet m it.id it) m) m0
        = (allItems pd).foldl (fun m it => omapSet m it.id it) m0 from h []
  induction pd with
  | nil =>
    intro m0
    simp [allItems]
  | cons g rest ih =>
    intro m0
    simp only [List.foldl_cons, allItems, List.map_cons, List.flatten_cons]
    rw [List.foldl_append]
    exact ih _

theorem omapGet_foldl_setId (items : List Item) :
    ∀ (m0 : List (String × Item)) (k : String),
      omapGet (items.foldl (fun m it => omapSet m it.id it) m0) k
        = Option.or (items.reverse.find? (fun it => it.id == k)) (omapGet m0 k) := by
  induction items with
  | nil =>
    intro m0 k
    simp [Option.or]
  | cons a rest ih =>
    intro m0 k
    simp only [List.foldl_cons, List.reverse_cons]
    rw [ih, List.find?_append, Option.or_assoc, omapGet_omapSet]
    congr 1
    by_cases hk : a.id = k
    · have ha : ([a].find? (fun it => it.id == k)) = some a := by simp [List.find?, hk]
      rw [ha, if_pos hk]
      rfl
    · have hb : (a.id == k) = false := by simpa using hk
      have ha : ([a].find? (fun it => it.id == k)) = none := by simp [List.find?, hb]
      rw [ha, if_neg hk]
      rfl

theorem omapGet_buildIdMap (pd : List Group) (k : String) :
    omapGet (buildIdMap pd) k = (allItems pd).reverse.find? (fun it => it.id == k) := by
  rw [buildIdMap_foldl, omapGet_foldl_setId]
  show Option.or _ none = _
  cases (allItems pd).reverse.find? (fun it => it.id == k) <;> rfl

/-- The records that a commit (`moveSelectedToChosen`) appends to the
SelectionSet: in staging order, the staged ids that resolve to a loaded item
(the last-loaded item with that id) and are not already chosen. -/
def stagedAdditions (s : Component) : List SelRecord :=
  s.tempSelectedItems.filterMap (fun tid =>
    match (allItems s.processedData).reverse.find? (fun it => it.id == tid) with
    | some it =>
        if (s.selectedItems.map (fun r => r.id)).contains tid then none
        else some ⟨it.name, tid⟩
    | none => none)

theorem msc_noop (s : Component) (he : s.tempSelectedItems.isEmpty = true) :
    moveSelectedToChosen s = (s, none) := by
  unfold moveSelectedToChosen
  rw [if_pos he]

theorem msc_selectedItems_eq (s : Component) (hne : s.tempSelectedItems.isEmpty = false) :
    (moveSelectedToChosen s).1.selectedItems = s.selectedItems ++ stagedAdditions s := by
  unfold moveSelectedToChosen
  rw [if_neg (by simp [hne])]
  show s.selectedItems ++ _ = s.selectedItems ++ stagedAdditions s
  congr 1
  unfold stagedAdditions
  refine congrArg (fun f => s.tempSelectedItems.filterMap f) (funext (fun tid => ?_))
  rw [omapGet_buildIdMap]
  cases hf : (allItems s.processedData).reverse.find? (fun it => it.id == tid) with
  | none => rfl
  | some it =>
    have hid : it.id = tid := by simpa using List.find?_some hf
    show (if (s.selectedItems.map (fun r => r.id)).contains it.id then none
          else some (⟨it.name, it.id⟩ : SelRecord))
        = (if (s.selectedItems.map (fun r => r.id)).contains tid then none
           else some (⟨it.name, tid⟩ : SelRecord))
    rw [hid]

theorem msc_tempSelectedItems (s : Component) :
    (moveSelectedToChosen s).1.tempSelectedItems = [] := by
  by_cases he : s.tempSelectedItems.isEmpty
  · rw [msc_noop s he]
    exact List.isEmpty_iff.1 he
  · rw [Bool.not_eq_true] at he
    unfold moveSelectedToChosen
    rw [if_neg (by simp [he])]
    rfl

theorem msc_event (s : Component) :
    (moveSelectedToChosen s).2 = (if s.tempSelectedItems.isEmpty then none
      else some (emitPayload (moveSelectedToChosen s).1)) := by
  by_cases he : s.tempSelectedItems.isEmpty
  · rw [msc_noop s he, if_pos he]
  · rw [Bool.not_eq_true] at he
    rw [if_neg (by simp [he])]
    unfold moveSelectedToChosen
    rw [if_neg (by simp [he])]

/-! ## Duplicate-freedom and order of the SelectionSet -/

theorem filterMap_resolve_ids (fd : String → Option Item) (present : String → Bool)
    (l : List String) :
    ((l.filterMap (fun tid =>
        match fd tid with
        | some it => if present tid then none else some (⟨it.name, tid⟩ : SelRecord)
        | none => none)).map (fun r => r.id))
      = l.filter (fun tid => (fd tid).isSome && !present tid) := by
  induction l with
  | nil => rfl
  | cons a rest ih =>
    rw [List.filterMap_cons, List.filter_cons]
    cases hf : fd a with
    | none => simp [hf, ih]
    | some it =>
      by_cases hp : present a
      · simp [hf, hp, ih]
      · simp [hf, hp, ih]

theorem stagedAdditions_ids (s : Component) :
    (stagedAdditions s).map (fun r => r.id)
      = s.tempSelectedItems.filter (fun tid =>
          ((allItems s.processedData).reverse.find? (fun it => it.id == tid)).isSome
            && !((s.selectedItems.map (fun r => r.id)).contains tid)) := by
  unfold stagedAdditions
  exact filterMap_resolve_ids _ _ _

theorem stagedAdditions_nil_of_all_present (s : Component)
    (h : ∀ tid ∈ s.tempSelectedItems,
      (s.selectedItems.map (fun r => r.id)).contains tid = true) :
    stagedAdditions s = [] := by
  unfold stagedAdditions
  refine List.filterMap_eq_nil_iff.2 (fun tid htid => ?_)
  cases hf : (allItems s.processedData).reverse.find? (fun it => it.id == tid) with
  | none => rfl
  | some it =>
    show (if (s.selectedItems.map (fun r => r.id)).contains tid then none
          else some (⟨it.name, tid⟩ : SelRecord)) = none
    rw [if_pos (h tid htid)]

theorem msc_selectedItems_of_all_present (s : Component)
    (h : ∀ tid ∈ s.tempSelectedItems,
      (s.selectedItems.map (fun r => r.id)).contains tid = true) :
    (moveSelectedToChosen s).1.selectedItems = s.selectedItems := by
  by_cases he : s.tempSelectedItems.isEmpty
  · rw [msc_noop s he]
  · rw [Bool.not_eq_true] at he
    rw [msc_selectedItems_eq s he, stagedAdditions_nil_of_all_present s h,
      List.append_nil]

theorem nodup_moveSelectedToChosen (s : Component)
    (h1 : (s.selectedItems.map (fun r => r.id)).Nodup)
    (h2 : s.tempSelectedItems.Nodup) :
    ((moveSelectedToChosen s).1.selectedItems.map (fun r => r.id)).Nodup := by
  by_cases he : s.tempSelectedItems.isEmpty
  · rw [msc_noop s he]
    exact h1
  · rw [Bool.not_eq_true] at he
    rw [msc_selectedItems_eq s he, List.map_append, stagedAdditions_ids]
    refine h1.append (h2.filter _) ?_
    intro a ha hb
    have hpred := (List.mem_filter.1 hb).2
    simp only [Bool.and_eq_true, Bool.not_eq_true'] at hpred
    have hnm : a ∉ s.selectedItems.map (fun r => r.id) := by simpa using hpred.2
    exact hnm ha

theorem removeItem_selectedItems (i : String) (s : Component) :
    (removeItem i s).1.selectedItems
      = s.selectedItems.filter (fun r => r.id != i) := rfl

theorem nodup_removeItem (i : String) (s : Component)
    (h1 : (s.selectedItems.map (fun r => r.id)).Nodup) :
    ((removeItem i s).1.selectedItems.map (fun r => r.id)).Nodup := by
  rw [removeItem_selectedItems]
  exact h1.sublist ((List.filter_sublist _).map _)

theorem mca_noop (s : Component) (he : s.tempChosenItems.isEmpty = true) :
    moveChosenToAvailable s = (s, none) := by
  unfold moveChosenToAvailable
  rw [if_pos he]

theorem mca_selectedItems (s : Component) (hne : s.tempChosenItems.isEmpty = false) :
    (moveChosenToAvailable s).1.selectedItems
      = s.selectedItems.filter (fun it => !(s.tempChosenItems.contains it.id)) := by
  unfold moveChosenToAvailable
  rw [if_neg (by simp [hne])]
  rfl

theorem nodup_moveChosenToAvailable (s : Component)
    (h1 : (s.selectedItems.map (fun r => r.id)).Nodup) :
    ((moveChosenToAvailable s).1.selectedItems.map (fun r => r.id)).Nodup := by
  by_cases he : s.tempChosenItems.isEmpty
  · rw [mca_noop s he]
    exact h1
  · rw [Bool.not_eq_true] at he
    rw [mca_selectedItems s he]
    exact h1.sublist ((List.filter_sublist _).map _)

theorem hgs_selectedItems (name : String) (c : Bool) (s : Component) :
    (handleGroupSelect name c s).1.selectedItems
      = s.processedData.foldl (hgsSelStep name c) s.selectedItems := by
  show (s.processedData.foldl (hgsStep name c) (s.selectedItems, [])).1 = _
  exact foldl_hgsStep_fst name c s.processedData s.selectedItems []

theorem rg_selectedItems (name : String) (s : Component) :
    (removeGroup name s).1.selectedItems
      = s.processedData.foldl (rgSelStep name) s.selectedItems := by
  show (s.processedData.foldl (rgStep name) (s.selectedItems, [])).1 = _
  exact foldl_rgStep_fst name s.processedData s.selectedItems []

theorem items_nodup_of_allItems_nodup {pd : List Group} {g : Group} (hg : g ∈ pd)
    (h : ((allItems pd).map (fun it => it.id)).Nodup) :
    ((g.items.map (fun it => it.id)).Nodup) := by
  have hsub : g.items.Sublist (allItems pd) :=
    List.sublist_flatten_of_mem (List.mem_map_of_mem (fun g => g.items) hg)
  exact h.sublist (hsub.map _)

theorem nodup_foldl_hgsSelStep (name : String) (c : Bool) (gs : List Group) :
    ∀ sel : List SelRecord,
      (∀ g ∈ gs, ((g.items.map (fun it => it.id)).Nodup)) →
      ((sel.map (fun r => r.id)).Nodup) →
      (((gs.foldl (hgsSelStep name c) sel).map (fun r => r.id)).Nodup) := by
  induction gs with
  | nil =>
    intro sel _ h
    exact h
  | cons g rest ih =>
    intro sel hg h
    simp only [List.foldl_cons]
    refine ih _ (fun g' hg' => hg g' (List.mem_cons_of_mem _ hg')) ?_
    unfold hgsSelStep
    by_cases hname : (g.groupName == name)
    · rw [if_pos hname]
      by_cases hc : c
      · subst hc
        rw [if_pos rfl, List.map_append]
        have hids : ∀ (l : List Item),
            ((l.map (fun it => (⟨it.name, it.id⟩ : SelRecord))).map (fun r => r.id))
              = l.map (fun it => it.id) := by
          intro l
          rw [List.map_map]
          rfl
        rw [hids]
        have hupd : ((g.items.map (fun it => { it with isSelected := true })).map
            (fun it => it.id)) = g.items.map (fun it => it.id) := by
          rw [List.map_map]
          rfl
        refine h.append ?_ ?_
        · refine List.Nodup.sublist ?_ (hupd ▸ hg g (List.mem_cons_self _ _))
          exact (List.filter_sublist _).map _
        · intro a ha hb
          rcases List.mem_map.1 hb with ⟨it, hit, rfl⟩
          have hq := (List.mem_filter.1 hit).2
          simp only [Bool.not_eq_true', List.any_eq_false] at hq
          rcases List.mem_map.1 ha with ⟨si, hsi, hid⟩
          exact absurd (by simpa using hid) (hq si hsi)
      · rw [Bool.not_eq_true] at hc
        subst hc
        rw [if_neg (by simp)]
        exact h.sublist ((List.filter_sublist _).map _)
    · rw [if_neg hname]
      exact h

theorem nodup_handleGroupSelect (name : String) (c : Bool) (s : Component)
    (h1 : (s.selectedItems.map (fun r => r.id)).Nodup)
    (h3 : ((allItems s.processedData).map (fun it => it.id)).Nodup) :
    ((handleGroupSelect name c s).1.selectedItems.map (fun r => r.id)).Nodup := by
  rw [hgs_selectedItems]
  exact nodup_foldl_hgsSelStep name c s.processedData s.selectedItems
    (fun g hg => items_nodup_of_allItems_nodup hg h3) h1

theorem nodup_foldl_rgSelStep (name : String) (gs : List Group) :
    ∀ sel : List SelRecord,
      ((sel.map (fun r => r.id)).Nodup) →
      (((gs.foldl (rgSelStep name) sel).map (fun r => r.id)).Nodup) := by
  induction gs with
  | nil =>
    intro sel h
    exact h
  | cons g rest ih =>
    intro sel h
    simp only [List.foldl_cons]
    refine ih _ ?_
    unfold rgSelStep
    by_cases hname : (g.groupName == name)
    · rw [if_pos hname]
      exact h.sublist ((List.filter_sublist _).map _)
    · rw [if_neg hname]
      exact h

theorem nodup_removeGroup (name : String) (s : Component)
    (h1 : (s.selectedItems.map (fun r => r.id)).Nodup) :
    ((removeGroup name s).1.selectedItems.map (fun r => r.id)).Nodup := by
  rw [rg_selectedItems]
  exact nodup_foldl_rgSelStep name s.processedData s.selectedItems h1

theorem sublist_foldl_rgSelStep (name : String) (gs : List Group) :
    ∀ sel : List SelRecord, (gs.foldl (rgSelStep name) sel).Sublist sel := by
  induction gs with
  | nil =>
    intro sel
    exact List.Sublist.refl sel
  | cons g rest ih =>
    intro sel
    simp only [List.foldl_cons]
    refine (ih _).trans ?_
    unfold rgSelStep
    by_cases hname : (g.groupName == name)
    · rw [if_pos hname]
      exact List.filter_sublist sel
    · rw [if_neg hname]

/-! ## Claim C1: `removeItem` -/

/-- Claim C1, counterexample: the claim says `removeItem(id)` also drops the
id from the `pendingChosen` staging register (`tempChosenItems`).  In the
state reached by loading one record, selecting its group and staging its id
on the chosen side, `removeItem "1"` empties the SelectionSet but leaves
`"1"` sitting in `tempChosenItems`. -/
theorem claim_C1_counterexample :
    (selectChosenItem "1" sSelected).1.tempChosenItems = ["1"]
    ∧ (removeItem "1" (selectChosenItem "1" sSelected).1).1.selectedItems = []
    ∧ "1" ∈ (removeItem "1" (selectChosenItem "1" sSelected).1).1.tempChosenItems := by
  decide

/-- Claim C1 (amended): `removeItem(id)` immediately removes every entry with
that id from the SelectionSet and dispatches the selection event, but leaves
both staging registers — `pendingChosen` (`tempChosenItems`) included —
unchanged. -/
theorem claim_C1_removeItem (i : String) (s : Component) :
    (removeItem i s).1.selectedItems = s.selectedItems.filter (fun r => r.id != i)
    ∧ (removeItem i s).1.tempChosenItems = s.tempChosenItems
    ∧ (removeItem i s).1.tempSelectedItems = s.tempSelectedItems
    ∧ (removeItem i s).2 = some (emitPayload (removeItem i s).1) :=
  ⟨rfl, rfl, rfl, rfl⟩

/-! ## Claim C2: the `allSelected` rollup invariant -/

/-- Claim C2, counterexample: the claim's biconditional (`allSelected` ⇔
group non-empty ∧ every member id ∈ SelectionSet) fails after a reload that
skips restoration: in `sReloaded` the only group contains the selected id
`"1"` and is non-empty, yet `isAllSelected` is `false`, because the wire
adapter rebuilds the grouping with all flags cleared and only reruns the
rollups when `_preSelectedRecords` is non-empty. -/
theorem claim_C2_counterexample : ¬ allSelectedSpecInv sReloaded := by
  unfold allSelectedSpecInv
  decide

/-- Claim C2 (amended): after every operation, each available group's
`allSelected` flag is `true` iff the group is non-empty and every member's
`isSelected` flag is `true`.  (Membership in the SelectionSet itself can
disagree with the flags after a data reload with no pending pre-selection;
see the counterexample.) -/
theorem claim_C2_rollup (s : Component) (h : Reachable s) :
    ∀ g ∈ s.processedData,
      (g.isAllSelected = true ↔ (g.items ≠ [] ∧ ∀ it ∈ g.items, it.isSelected = true)) := by
  intro g hg
  rcases flagsOk_of_reachable h g hg with ⟨hne, hall⟩
  constructor
  · intro hsel
    refine ⟨hne, ?_⟩
    have hb : g.items.all (fun it => it.isSelected) = true := hall.symm.trans hsel
    exact fun it hit => List.all_eq_true.1 hb it hit
  · rintro ⟨-, hsel⟩
    rw [hall]
    exact List.all_eq_true.2 (fun it hit => hsel it hit)

/-- Witness for C2: in the concrete reachable state `sSelected`, the rollup
equivalence applied to its only group (non-empty, all flags set) yields
`isAllSelected = true`. -/
theorem claim_C2_witness :
    (⟨"X", [⟨some "A", "1", true⟩], false, true⟩ : Group).isAllSelected = true :=
  (claim_C2_rollup sSelected
    (Reachable.groupSelect "X" true
      (Reachable.loadSuccess data1 (Reachable.init (some "Cat") none)))
    ⟨"X", [⟨some "A", "1", true⟩], false, true⟩ (by decide)).2
    ⟨by decide, by decide⟩

/-! ## Claim C3: the ChosenGroups invariant -/

/-- Claim C3, counterexample: on the fetch-failure path the source empties
`processedData` but leaves `selectedGroupsData` untouched, so the chosen
view no longer equals the SelectionSet partitioned over the (now empty)
known groups. -/
theorem claim_C3_counterexample :
    (loadFailure "boom" sSelected).1.selectedGroupsData
      ≠ chosenPartition (loadFailure "boom" sSelected).1.processedData
          (loadFailure "boom" sSelected).1.selectedItems := by
  decide

/-- Claim C3 (amended): the ChosenGroups view equals the SelectionSet
partitioned by group (restricted to known ids, no empty entries) after each
§4.3 mutation — per-item removal, per-group removal, whole-group select,
and the two commits when their staging register is non-empty — and after a
restoration, given distinct group names (which grouping guarantees).  After
a bare reload without restoration and after a fetch failure the view is left
stale rather than recomputed (see the counterexample). -/
theorem claim_C3_chosenView (s : Component)
    (h : (s.processedData.map (fun g => g.groupName)).Nodup) :
    (∀ i, (removeItem i s).1.selectedGroupsData
      = chosenPartition (removeItem i s).1.processedData (removeItem i s).1.selectedItems)
    ∧ (∀ name c, (handleGroupSelect name c s).1.selectedGroupsData
      = chosenPartition (handleGroupSelect name c s).1.processedData
          (handleGroupSelect name c s).1.selectedItems)
    ∧ (∀ name, (removeGroup name s).1.selectedGroupsData
      = chosenPartition (removeGroup name s).1.processedData
          (removeGroup name s).1.selectedItems)
    ∧ (s.tempSelectedItems ≠ [] → (moveSelectedToChosen s).1.selectedGroupsData
      = chosenPartition (moveSelectedToChosen s).1.processedData
          (moveSelectedToChosen s).1.selectedItems)
    ∧ (s.tempChosenItems ≠ [] → (moveChosenToAvailable s).1.selectedGroupsData
      = chosenPartition (moveChosenToAvailable s).1.processedData
          (moveChosenToAvailable s).1.selectedItems)
    ∧ (s.preSelectedRecords ≠ [] → (restoreSelection s).selectedGroupsData
      = chosenPartition (restoreSelection s).processedData
          (restoreSelection s).selectedItems) :=
  ⟨fun i => removeItem_chosenView i s h,
   fun name c => handleGroupSelect_chosenView name c s h,
   fun name => removeGroup_chosenView name s h,
   fun hne => moveSelectedToChosen_chosenView s hne h,
   fun hne => moveChosenToAvailable_chosenView s hne h,
   fun hne => restoreSelection_chosenView s hne h⟩

/-- Witness for C3 at the concrete selected state. -/
theorem claim_C3_witness :
    (removeItem "1" sSelected).1.selectedGroupsData
      = chosenPartition (removeItem "1" sSelected).1.processedData
          (removeItem "1" sSelected).1.selectedItems :=
  (claim_C3_chosenView sSelected (by decide)).1 "1"

/-! ## Claim C4: no duplicates, order preserved -/

/-- Claim C4, counterexample: restoring a list containing repeated ids does
introduce duplicates — `restoreSelection` copies `_preSelectedRecords`
verbatim into the SelectionSet without deduplication. -/
theorem claim_C4_counterexample :
    ¬ (((setSelectedRecords (some [⟨some "A", "1"⟩, ⟨some "A", "1"⟩]) sLoaded).1.selectedItems.map
        (fun r => r.id)).Nodup) := by
  decide

/-- Claim C4 (amended): starting from a state with duplicate-free
SelectionSet ids, duplicate-free staging and duplicate-free loaded item ids,
every §4.3 mutation preserves duplicate-freedom; committing staged ids that
are all already chosen leaves the SelectionSet unchanged; commits only
append (preserving the existing prefix), and removals are order-preserving
sublists.  Restoration, by contrast, copies its input verbatim, so a
restored list with repeated ids does create duplicates (see the
counterexample). -/
theorem claim_C4_nodup_order (s : Component)
    (h1 : (s.selectedItems.map (fun r => r.id)).Nodup)
    (h2 : s.tempSelectedItems.Nodup)
    (h3 : ((allItems s.processedData).map (fun it => it.id)).Nodup) :
    ((moveSelectedToChosen s).1.selectedItems.map (fun r => r.id)).Nodup
    ∧ (∀ name c, ((handleGroupSelect name c s).1.selectedItems.map (fun r => r.id)).Nodup)
    ∧ ((moveChosenToAvailable s).1.selectedItems.map (fun r => r.id)).Nodup
    ∧ (∀ i, ((removeItem i s).1.selectedItems.map (fun r => r.id)).Nodup)
    ∧ (∀ name, ((removeGroup name s).1.selectedItems.map (fun r => r.id)).Nodup)
    ∧ ((∀ tid ∈ s.tempSelectedItems,
          (s.selectedItems.map (fun r => r.id)).contains tid = true) →
        (moveSelectedToChosen s).1.selectedItems = s.selectedItems)
    ∧ (∃ extra, (moveSelectedToChosen s).1.selectedItems = s.selectedItems ++ extra)
    ∧ (∀ i, ((removeItem i s).1.selectedItems).Sublist s.selectedItems)
    ∧ ((moveChosenToAvailable s).1.selectedItems).Sublist s.selectedItems
    ∧ (∀ name, ((removeGroup name s).1.selectedItems).Sublist s.selectedItems) := by
  refine ⟨nodup_moveSelectedToChosen s h1 h2,
    fun name c => nodup_handleGroupSelect name c s h1 h3,
    nodup_moveChosenToAvailable s h1,
    fun i => nodup_removeItem i s h1,
    fun name => nodup_removeGroup name s h1,
    msc_selectedItems_of_all_present s,
    ?_, ?_, ?_, ?_⟩
  · by_cases he : s.tempSelectedItems.isEmpty
    · exact ⟨[], by rw [msc_noop s he, List.append_nil]⟩
    · rw [Bool.not_eq_true] at he
      exact ⟨stagedAdditions s, msc_selectedItems_eq s he⟩
  · intro i
    rw [removeItem_selectedItems]
    exact List.filter_sublist _
  · by_cases he : s.tempChosenItems.isEmpty
    · rw [mca_noop s he]
    · rw [Bool.not_eq_true] at he
      rw [mca_selectedItems s he]
      exact List.filter_sublist _
  · intro name
    rw [rg_selectedItems]
    exact sublist_foldl_rgSelStep name s.processedData s.selectedItems

/-- Witness for C4 at the concrete selected state. -/
theorem claim_C4_witness :
    ((moveSelectedToChosen sSelected).1.selectedItems.map (fun r => r.id)).Nodup :=
  (claim_C4_nodup_order sSelected (by decide) (by decide) (by decide)).1

/-! ## Claim C5: pre-selection round trip -/

/-- Claim C5 (confirmed): `setSelectedRecords(X)` before the data load,
followed by a successful load of records whose ids match X, leaves
`getSelectedRecords()` returning exactly X's ids in X's original order.
(The proof in fact never needs the matching hypothesis: restoration copies
X verbatim.) -/
theorem claim_C5_roundtrip (gb pv : Option String) (X : List SelRecord)
    (data : List RawRecord)
    (_h : ((allItems (processQueryResults gb pv data)).map (fun it => it.id))
      = X.map (fun r => r.id)) :
    ((getSelectedRecords (loadSuccess data
        ((setSelectedRecords (some X) (initState gb pv)).1)).1).map (fun r => r.id))
      = X.map (fun r => r.id) := by
  cases X with
  | nil => rfl
  | cons x xs =>
    show ((restoreSelection _).selectedItems.map (fun r => r.id)) = _
    unfold restoreSelection
    rw [if_neg (by simp [setSelectedRecords, initState])]
    show ((((x :: xs).map (fun r => (⟨r.name, r.id⟩ : SelRecord))).map (fun r => r.id))) = _
    rw [List.map_map]
    rfl

/-- Witness for C5 at the Scenario-A data. -/
theorem claim_C5_witness :
    ((getSelectedRecords (loadSuccess data1
        ((setSelectedRecords (some [⟨some "A", "1"⟩]) (initState (some "Cat") none)).1)).1).map
      (fun r => r.id))
      = ([⟨some "A", "1"⟩] : List SelRecord).map (fun r => r.id) :=
  claim_C5_roundtrip (some "Cat") none [⟨some "A", "1"⟩] data1 (by decide)

/-! ## Claim C6: the commit operation -/

/-- Claim C6, counterexample: the claim says the commit appends exactly the
staged ids not already present.  Staging the id `"9"` with no data loaded
(`handleItemSelect` accepts any id) and committing appends nothing, because
the source drops staged ids that do not resolve in the id→item index. -/
theorem claim_C6_counterexample :
    (handleItemSelect "9" true (initState (some "Cat") none)).1.tempSelectedItems = ["9"]
    ∧ (moveSelectedToChosen
        (handleItemSelect "9" true (initState (some "Cat") none)).1).1.selectedItems = []
    ∧ ((moveSelectedToChosen
        (handleItemSelect "9" true (initState (some "Cat") none)).1).1.selectedItems.map
          (fun r => r.id)) ≠ ["9"] := by
  decide

/-- Claim C6 (amended): the commit appends to the SelectionSet, in staging
order, exactly those `pendingAvailable` ids that resolve to a loaded item
and are not already present (`stagedAdditions`); it clears the register
unconditionally; when the register is empty it is a complete no-op with no
notification, and otherwise it emits one notification with the new list. -/
theorem claim_C6_commit (s : Component) :
    (s.tempSelectedItems = [] → moveSelectedToChosen s = (s, none))
    ∧ (moveSelectedToChosen s).1.tempSelectedItems = []
    ∧ (moveSelectedToChosen s).1.selectedItems = s.selectedItems ++ stagedAdditions s
    ∧ (moveSelectedToChosen s).2 = (if s.tempSelectedItems.isEmpty then none
        else some (emitPayload (moveSelectedToChosen s).1)) := by
  refine ⟨fun he => msc_noop s (by simp [he]), msc_tempSelectedItems s, ?_, msc_event s⟩
  by_cases he : s.tempSelectedItems.isEmpty
  · rw [msc_noop s he]
    have ht : s.tempSelectedItems = [] := List.isEmpty_iff.1 he
    unfold stagedAdditions
    rw [ht]
    simp
  · rw [Bool.not_eq_true] at he
    exact msc_selectedItems_eq s he

/-- Witness for C6 at the freshly constructed state (empty staging). -/
theorem claim_C6_witness :
    moveSelectedToChosen (initState none none) = (initState none none, none) :=
  (claim_C6_commit (initState none none)).1 rfl

/-! ## Claim C7: reset -/

/-- Claim C7 (confirmed): `resetSelections` empties the SelectionSet, the
ChosenGroups view, both staging registers and the pending pre-selection,
clears `allSelected` and every item's `isSelected` flag in every group, and
always emits the selection event with an empty list. -/
theorem claim_C7_reset (s : Component) :
    (resetSelections s).1.selectedItems = []
    ∧ (resetSelections s).1.selectedGroupsData = []
    ∧ (resetSelections s).1.tempSelectedItems = []
    ∧ (resetSelections s).1.tempChosenItems = []
    ∧ (resetSelections s).1.preSelectedRecords = []
    ∧ (resetSelections s).1.processedData = s.processedData.map (fun g =>
        { g with isAllSelected := false,
                 items := g.items.map (fun it => { it with isSelected := false }) })
    ∧ (resetSelections s).2 = some [] :=
  ⟨rfl, rfl, rfl, rfl, rfl, rfl, rfl⟩

/-! ## Claim C8: fetch failure -/

/-- Claim C8 (confirmed): the failure branch of the wire adapter stores the
error, clears the loading flag, empties the grouping, and leaves the
SelectionSet, the chosen view, both staging registers and the pending
pre-selection untouched; no event is emitted and (being a total function of
the state) nothing is thrown. -/
theorem claim_C8_fetchFailure (err : String) (s : Component) :
    (loadFailure err s).1.error = some err
    ∧ (loadFailure err s).1.isLoading = false
    ∧ (loadFailure err s).1.processedData = []
    ∧ (loadFailure err s).1.selectedItems = s.selectedItems
    ∧ (loadFailure err s).1.selectedGroupsData = s.selectedGroupsData
    ∧ (loadFailure err s).1.tempSelectedItems = s.tempSelectedItems
    ∧ (loadFailure err s).1.tempChosenItems = s.tempChosenItems
    ∧ (loadFailure err s).1.preSelectedRecords = s.preSelectedRecords
    ∧ (loadFailure err s).2 = none :=
  ⟨rfl, rfl, rfl, rfl, rfl, rfl, rfl, rfl, rfl⟩

/-! ## Claim C9: grouping fallbacks -/

/-- Claim C9, counterexample: with a configured display field (`pickValues =
"Lbl"`) and a record lacking that field, the produced item's label is
absent (`none`) — there is no fallback chain ending at the id in that case,
refuting "the label is never absent".  (The missing group key does land in
`"Unassigned"`, and the record is kept because it has an id.) -/
theorem claim_C9_counterexample :
    processQueryResults (some "Cat") (some "Lbl") [[("Id", "1")]]
      = [⟨"Unassigned", [⟨none, "1", false⟩], false, false⟩]
    ∧ ((allItems (processQueryResults (some "Cat") (some "Lbl") [[("Id", "1")]])).map
        (fun it => it.name)) = [none] := by
  decide

/-- Claim C9 (amended): records with a falsy id are dropped without failing;
with a configured group-by field, a missing or empty group-key field lands
the record in the sentinel group `"Unassigned"`; when no display field is
configured the label falls back `Name` → `Id` and is present for every kept
record; when a display field is configured the label is exactly that
field's value and may be absent. -/
theorem claim_C9_grouping :
    (∀ (gb pv : Option String) (data : List RawRecord),
      processQueryResults gb pv data
        = processQueryResults gb pv (data.filter (fun r => jsTruthy (getField r "Id"))))
    ∧ (∀ (gb : Option String) (r : RawRecord), jsTruthy gb = true →
        jsTruthy (getField r (gb.getD "")) = false → groupNameOf gb r = "Unassigned")
    ∧ (∀ (pv : Option String) (r : RawRecord), jsTruthy pv = false →
        displayValueOf pv r = jsOrOpt (getField r "Name") (getField r "Id"))
    ∧ (∀ (r : RawRecord), jsTruthy (getField r "Id") = true →
        (displayValueOf none r).isSome = true)
    ∧ (∀ (pv : Option String) (r : RawRecord), jsTruthy pv = true →
        displayValueOf pv r = getField r (pv.getD "")) := by
  refine ⟨?_, ?_, ?_, ?_, ?_⟩
  · intro gb pv data
    unfold processQueryResults
    suffices hs : ∀ m : List (String × List Item),
        data.foldl (pqrStep gb pv) m
          = (data.filter (fun r => jsTruthy (getField r "Id"))).foldl (pqrStep gb pv) m by
      rw [hs []]
    induction data with
    | nil =>
      intro m
      rfl
    | cons r rest ih =>
      intro m
      rw [List.filter_cons]
      by_cases hid : jsTruthy (getField r "Id")
      · rw [if_pos hid]
        simp only [List.foldl_cons]
        exact ih _
      · rw [Bool.not_eq_true] at hid
        rw [if_neg (by simp [hid])]
        simp only [List.foldl_cons]
        have hstep : pqrStep gb pv m r = m := by
          simp only [pqrStep]
          rw [hid]
          simp
        rw [hstep]
        exact ih _
  · intro gb r h1 h2
    unfold groupNameOf
    rw [if_pos h1]
    unfold jsOrStr
    rw [h2]
    rfl
  · intro pv r h1
    unfold displayValueOf
    rw [h1]
    rfl
  · intro r h1
    unfold displayValueOf jsOrOpt
    rw [show jsTruthy (none : Option String) = false from rfl]
    simp only [Bool.false_eq_true, if_false]
    by_cases hn : jsTruthy (getField r "Name")
    · rw [if_pos hn]
      cases hg : getField r "Name" with
      | none => rw [hg] at hn; exact absurd hn (by simp [jsTruthy])
      | some v => simp
    · rw [Bool.not_eq_true] at hn
      rw [if_neg (by simp [hn])]
      cases hg : getField r "Id" with
      | none => rw [hg] at h1; exact absurd h1 (by simp [jsTruthy])
      | some v => simp
  · intro pv r h1
    unfold displayValueOf
    rw [h1]
    rfl

/-- Witness for C9: a configured group-by field with the field missing on
the record yields the sentinel group. -/
theorem claim_C9_witness : groupNameOf (some "Cat") [("Id", "1")] = "Unassigned" :=
  claim_C9_grouping.2.1 (some "Cat") [("Id", "1")] (by decide) (by decide)

/-! ## Claim C10: empty/null `setSelectedRecords` is a frame -/

/-- Claim C10 (confirmed): on a state with a non-empty SelectionSet, calling
`setSelectedRecords` with `null` or an empty list leaves the SelectionSet,
the grouping (hence every flag and rollup) and the chosen view unchanged and
emits no notification — it does not clear the existing selection.  (Only the
stored `_preSelectedRecords` is overwritten with `[]`.) -/
theorem claim_C10_frame (s : Component) (records : Option (List SelRecord))
    (hrec : records = none ∨ records = some [])
    (_hsel : s.selectedItems ≠ []) :
    (setSelectedRecords records s).1.selectedItems = s.selectedItems
    ∧ (setSelectedRecords records s).1.processedData = s.processedData
    ∧ (setSelectedRecords records s).1.selectedGroupsData = s.selectedGroupsData
    ∧ (setSelectedRecords records s).1.tempSelectedItems = s.tempSelectedItems
    ∧ (setSelectedRecords records s).1.tempChosenItems = s.tempChosenItems
    ∧ (setSelectedRecords records s).2 = none := by
  have hd : records.getD [] = [] := by
    rcases hrec with rfl | rfl <;> rfl
  have key : setSelectedRecords records s = ({ s with preSelectedRecords := [] }, none) := by
    unfold setSelectedRecords
    rw [hd]
    show (if ({ s with preSelectedRecords := ([] : List SelRecord) } :
            Component).processedData.isEmpty = true
          then ({ s with preSelectedRecords := ([] : List SelRecord) } : Component)
          else restoreSelection { s with preSelectedRecords := [] }, none)
        = ({ s with preSelectedRecords := [] }, none)
    by_cases hp : ({ s with preSelectedRecords := ([] : List SelRecord) } :
        Component).processedData.isEmpty
    · rw [if_pos hp]
    · rw [if_neg hp]
      rfl
  rw [key]
  exact ⟨rfl, rfl, rfl, rfl, rfl, rfl⟩

/-- Witness for C10 at the concrete selected state. -/
theorem claim_C10_witness :
    (setSelectedRecords none sSelected).1.selectedItems = sSelected.selectedItems
    ∧ (setSelectedRecords none sSelected).1.processedData = sSelected.processedData
    ∧ (setSelectedRecords none sSelected).1.selectedGroupsData
        = sSelected.selectedGroupsData
    ∧ (setSelectedRecords none sSelected).1.tempSelectedItems
        = sSelected.tempSelectedItems
    ∧ (setSelectedRecords none sSelected).1.tempChosenItems = sSelected.tempChosenItems
    ∧ (setSelectedRecords none sSelected).2 = none :=
  claim_C10_frame sSelected none (Or.inl rfl) (by decide)

end Picklist






